import Mathlib

set_option maxRecDepth 8000
set_option linter.unusedVariables false
set_option linter.unnecessarySeqFocus false

/-
Verification of the request-lifecycle coordinator in
`llama_ros/src/llava_ros/llava_node.cpp` (class `LlavaNode`).

The development shallowly embeds the node: pure helpers (`base64_encode`)
become Lean functions over `List Nat` bytes; the stateful handlers
(`handle_goal`, `handle_cancel`, `handle_accepted`, `execute`, `send_text`)
become explicit state-passing functions over an abstract engine record,
with the ordered sequence of engine calls recorded in a trace.
-/

namespace LlavaNode

/-- The two base64 alphabets of `LlavaNode::base64_encode` (`base64_chars[2]`,
subscripted by the `url` flag): index `false` is the standard alphabet, index
`true` the URL-safe one. -/
def base64_chars (url : Bool) : String :=
  if url then
    "ABCDEFGHIJKLMNOPQRSTUVWXYZabcdefghijklmnopqrstuvwxyz0123456789-_"
  else
    "ABCDEFGHIJKLMNOPQRSTUVWXYZabcdefghijklmnopqrstuvwxyz0123456789+/"

/-- `trailing_char = url ? '.' : '='` from `LlavaNode::base64_encode`. -/
def trailing_char (url : Bool) : Char := if url then '.' else '='

/-- Indexing `base64_chars_[v]` for a 6-bit value `v` (always `< 64` at every
use site in the source). -/
def b64sym (url : Bool) (v : Nat) : Char := (base64_chars url).toList.getD v 'A'

/-- `LlavaNode::base64_encode(bytes_to_encode, in_len, url)`: the `while` loop
consumes the byte buffer three bytes at a time (`pos += 3`); a trailing group
of two bytes emits three symbols and one trailing character, a trailing group
of one byte emits two symbols and two trailing characters.  Bytes are `Nat`
values `< 256`; the bit operations are transcribed verbatim. -/
def base64_encode : List Nat → Bool → List Char
  | [], _ => []
  | [b0], url =>
      [b64sym url ((b0 &&& 0xfc) >>> 2),
       b64sym url ((b0 &&& 0x03) <<< 4),
       trailing_char url, trailing_char url]
  | [b0, b1], url =>
      [b64sym url ((b0 &&& 0xfc) >>> 2),
       b64sym url (((b0 &&& 0x03) <<< 4) + ((b1 &&& 0xf0) >>> 4)),
       b64sym url ((b1 &&& 0x0f) <<< 2),
       trailing_char url]
  | b0 :: b1 :: b2 :: rest, url =>
      b64sym url ((b0 &&& 0xfc) >>> 2) ::
      b64sym url (((b0 &&& 0x03) <<< 4) + ((b1 &&& 0xf0) >>> 4)) ::
      b64sym url (((b1 &&& 0x0f) <<< 2) + ((b2 &&& 0xc0) >>> 6)) ::
      b64sym url (b2 &&& 0x3f) ::
      base64_encode rest url

/-- Value of a character in the standard base64 alphabet (spec side, for the
round-trip property; the repository itself contains no decoder). -/
def b64val (c : Char) : Option Nat :=
  let i := (base64_chars false).toList.indexOf c
  if i < 64 then some i else none

/-- Standard base64 decoding, following the spec's words: four-symbol groups,
standard alphabet, a final group `xy==` yields one byte and a final group
`xyz=` yields two bytes.  Used only to state the round-trip property of
`base64_encode`. -/
def base64_decode_spec : List Char → Option (List Nat)
  | [] => some []
  | c0 :: c1 :: c2 :: c3 :: rest =>
      if c2 = '=' then
        if c3 = '=' then
          if rest = [] then
            match b64val c0, b64val c1 with
            | some s0, some s1 => some [(s0 <<< 2) + (s1 >>> 4)]
            | _, _ => none
          else none
        else none
      else if c3 = '=' then
        if rest = [] then
          match b64val c0, b64val c1, b64val c2 with
          | some s0, some s1, some s2 =>
              some [(s0 <<< 2) + (s1 >>> 4), ((s1 &&& 0x0f) <<< 4) + (s2 >>> 2)]
          | _, _, _ => none
        else none
      else
        match b64val c0, b64val c1, b64val c2, b64val c3 with
        | some s0, some s1, some s2, some s3 =>
            match base64_decode_spec rest with
            | some tail =>
                some (((s0 <<< 2) + (s1 >>> 4)) ::
                      (((s1 &&& 0x0f) <<< 4) + (s2 >>> 2)) ::
                      (((s2 &&& 0x03) <<< 6) + s3) :: tail)
            | none => none
        | _, _, _, _ => none
  | _ => none

/-! ## Message and engine model

The node exchanges `llama_msgs` messages and drives an external engine
(`Llava`).  Probabilities are floating-point in the source and are only ever
copied, never computed with; they are therefore carried opaquely through a
type parameter `Prob`.  The engine, the sampling-parameter types and the
image compression step (`cv_bridge` + `cv::imencode`) are external
collaborators and enter the model as an abstract record / abstract
functions. -/

/-- One entry of `completion_output::probs`: an alternate token with its
probability. -/
structure TokenProbData (Prob : Type) where
  token : Nat
  probability : Prob
deriving DecidableEq, Repr

/-- `struct completion_output`: one Completion Unit, the chosen token plus its
probability alternates. -/
structure CompletionOutput (Prob : Type) where
  token : Nat
  probs : List (TokenProbData Prob)
deriving DecidableEq, Repr

/-- `llama_msgs::msg::TokenProb`: token id, probability and detokenized
text. -/
structure TokenProb (Prob : Type) where
  token : Nat
  probability : Prob
  token_text : String
deriving DecidableEq, Repr

/-- `llama_msgs::msg::TokenProbArray` as used in the result aggregation
loop. -/
structure TokenProbArray (Prob : Type) where
  data : List (TokenProb Prob) := []
deriving DecidableEq, Repr

/-- `result->response`: aggregated text, token ids and per-step probability
arrays (default-constructed empty). -/
structure ResponseMsg (Prob : Type) where
  text : String := ""
  tokens : List Nat := []
  probs : List (TokenProbArray Prob) := []
deriving DecidableEq, Repr

/-- The `probs` sub-message of `feedback->partial_response`: chosen token id
plus the alternates array. -/
structure ProbsMsg (Prob : Type) where
  chosen_token : Nat := 0
  data : List (TokenProb Prob) := []
deriving DecidableEq, Repr

/-- `feedback->partial_response`: one streamed token. -/
structure PartialResponseMsg (Prob : Type) where
  text : String := ""
  token : Nat := 0
  probs : ProbsMsg Prob := {}
deriving DecidableEq, Repr

/-- `GenerateResponse::Feedback`. -/
structure FeedbackMsg (Prob : Type) where
  partial_response : PartialResponseMsg Prob := {}
deriving DecidableEq, Repr

/-- `sensor_msgs::msg::Image` as read by `execute`: raw byte payload plus
encoding tag. -/
structure ImageMsg where
  data : List Nat := []
  encoding : String := ""
deriving DecidableEq, Repr

/-- `GenerateResponse::Goal`: prompt, optional image, reset flag and sampling
configuration (type parameter `Cfg`, resolved by the external
`llama_utils::GptParams` adapter). -/
structure GoalMsg (Cfg : Type) where
  prompt : String
  image : ImageMsg
  reset : Bool
  sampling_config : Cfg
deriving DecidableEq, Repr

/-- Terminal/active status of a goal handle.  `executing` is the RUNNING
state; `rclcpp_action`'s `is_active()` is true exactly while a handle is
unresolved. -/
inductive GoalStatus where
  | executing
  | succeeded
  | canceled
  | aborted
deriving DecidableEq, Repr

/-- A `GoalHandleGenerateResponse`: the goal, whether a cancel has been
requested for it (`is_canceling()`), and its resolution status. -/
structure GoalHandle (Cfg : Type) where
  goal : GoalMsg Cfg
  is_canceling : Bool
  status : GoalStatus
deriving DecidableEq, Repr

/-- `rclcpp_action::GoalResponse` (the two values the node uses). -/
inductive GoalResponse where
  | reject
  | accept_and_execute
deriving DecidableEq, Repr

/-- `rclcpp_action::CancelResponse`. -/
inductive CancelResponse where
  | accept
  | reject
deriving DecidableEq, Repr

/-- The engine interface the node consumes (`Llava`), as a record of pure
state-passing functions over an abstract engine state `σ`.  `detokenize` is a
`const` query and does not mutate the engine. -/
structure Engine (σ Prob : Type) where
  reset : σ → σ
  get_n_vocab : σ → Nat
  get_token_eos : σ → Nat
  load_image : String → σ → Bool × σ
  free_image : σ → σ
  generate_response : String → σ → List (CompletionOutput Prob) × σ
  detokenize : List Nat → String
  cancel : σ → σ

/-- One call made by the node to the engine (or to the sampling adapter),
recorded in order. -/
inductive EngineCall where
  | reset
  | update_sampling (vocab eos : Nat)
  | load_image (encoded_image : String)
  | free_image
  | generate (prompt : String)
  | cancel
deriving DecidableEq, Repr

/-- The node's cross-handler mutable state: engine state, the sampling
parameters held by `gpt_params` (abstract type `Par`), and the single
`goal_handle_` slot. -/
structure NodeState (σ Cfg Par : Type) where
  engine : σ
  params : Par
  goal_handle_ : Option (GoalHandle Cfg)
deriving DecidableEq, Repr

/-- Everything one run of `LlavaNode::execute` produces: the node state at
return, the ordered engine-call trace, the feedback messages published by the
`send_text` callback, and the resolution performed on the active handle
(`none` when resolution was skipped). -/
structure ExecOut (σ Cfg Par Prob : Type) where
  engine : σ
  params : Par
  goal_handle_ : Option (GoalHandle Cfg)
  calls : List EngineCall
  feedbacks : List (FeedbackMsg Prob)
  resolution : Option (GoalStatus × ResponseMsg Prob)
deriving DecidableEq, Repr

/-- `LlavaNode::handle_goal`: REJECT iff the stored handle exists and is
still active; decision only, no state is touched (the function reads the
slot and returns). -/
def handle_goal {Cfg : Type} (goal_handle_ : Option (GoalHandle Cfg)) : GoalResponse :=
  match goal_handle_ with
  | some h => if h.status = .executing then .reject else .accept_and_execute
  | none => .accept_and_execute

/-- `LlavaNode::handle_cancel`: forwards `cancel()` to the engine and returns
ACCEPT; the goal slot and sampling parameters are untouched. -/
def handle_cancel {σ Cfg Par Prob : Type} (eng : Engine σ Prob)
    (st : NodeState σ Cfg Par) : NodeState σ Cfg Par × CancelResponse :=
  ({ st with engine := eng.cancel st.engine }, .accept)

/-- `LlavaNode::handle_accepted`: installs the new handle in `goal_handle_`
(and spawns the detached `execute` thread, modelled by a subsequent
`execute` call). -/
def handle_accepted {σ Cfg Par : Type} (goal_handle : GoalHandle Cfg)
    (st : NodeState σ Cfg Par) : NodeState σ Cfg Par :=
  { st with goal_handle_ := some goal_handle }

/-- `LlavaNode::send_text`: the streaming callback.  With no active handle it
publishes nothing; otherwise it publishes exactly one feedback message built
from the completion. -/
def send_text {Cfg Prob : Type} (detokenize : List Nat → String)
    (goal_handle_ : Option (GoalHandle Cfg)) (completion : CompletionOutput Prob) :
    List (FeedbackMsg Prob) :=
  match goal_handle_ with
  | none => []
  | some _ =>
      [{ partial_response :=
          { text := detokenize [completion.token]
            token := completion.token
            probs :=
              { chosen_token := completion.token
                data := completion.probs.map fun prob =>
                  { token := prob.token
                    probability := prob.probability
                    token_text := detokenize [prob.token] } } } }]

/-- The result-aggregation `for` loop of `LlavaNode::execute`: starting from
the default-constructed result, append each completion's detokenized text,
token id and re-detokenized alternates. -/
def aggregate {Prob : Type} (detokenize : List Nat → String)
    (init : ResponseMsg Prob) (completion_results : List (CompletionOutput Prob)) :
    ResponseMsg Prob :=
  completion_results.foldl
    (fun r completion =>
      { text := r.text ++ detokenize [completion.token]
        tokens := r.tokens ++ [completion.token]
        probs := r.probs ++
          [{ data := completion.probs.map fun prob =>
              { token := prob.token
                probability := prob.probability
                token_text := detokenize [prob.token] } }] })
    init

/-- The tail of `LlavaNode::execute` from the `generate_response` call on:
generation (with `send_text` invoked by the engine once per completion, in
order), aggregation, and resolution.  `goal_handle_mem` is the node's
`goal_handle_` member at that point.  When `rclcpp::ok()` is false the
resolution block is skipped entirely (the handle is neither resolved nor
cleared); a `none` member inside the ok-branch would be a null dereference in
the source and is modelled as skipping resolution. -/
def execute_tail {σ Cfg Par Prob : Type} (eng : Engine σ Prob) (ok : Bool)
    (prompt : String) (params1 : Par) (e2 : σ) (calls : List EngineCall)
    (goal_handle_mem : Option (GoalHandle Cfg)) (result0 : ResponseMsg Prob) :
    ExecOut σ Cfg Par Prob :=
  let completion_results := (eng.generate_response prompt e2).1
  let e3 := (eng.generate_response prompt e2).2
  let feedbacks := (completion_results.map (send_text eng.detokenize goal_handle_mem)).flatten
  let result := aggregate eng.detokenize result0 completion_results
  let calls4 := calls ++ [.generate prompt]
  if ok then
    match goal_handle_mem with
    | some h =>
        if h.is_canceling then
          { engine := e3, params := params1, goal_handle_ := none, calls := calls4
            feedbacks := feedbacks, resolution := some (.canceled, result) }
        else
          { engine := e3, params := params1, goal_handle_ := none, calls := calls4
            feedbacks := feedbacks, resolution := some (.succeeded, result) }
    | none =>
        { engine := e3, params := params1, goal_handle_ := none, calls := calls4
          feedbacks := feedbacks, resolution := none }
  else
    { engine := e3, params := params1, goal_handle_ := goal_handle_mem, calls := calls4
      feedbacks := feedbacks, resolution := none }

/-- `LlavaNode::execute`: optional engine reset, sampling-parameter update
with freshly queried vocabulary size and eos token, image step (base64 over
the externally produced jpeg bytes `imencode_jpg image_msg`, then
`load_image`; abort on failure without clearing the member slot — only its
status becomes aborted), or `free_image` on an empty payload, then the
generation tail.  `ok` is `rclcpp::ok()` at resolution time; `goal_handle`
is the parameter handle, `st.goal_handle_` the member the source uses for
resolution. -/
def execute {σ Cfg Par Prob : Type} (eng : Engine σ Prob)
    (update_sampling_params : Cfg → Nat → Nat → Par → Par)
    (imencode_jpg : ImageMsg → List Nat) (ok : Bool)
    (goal_handle : GoalHandle Cfg) (st : NodeState σ Cfg Par) :
    ExecOut σ Cfg Par Prob :=
  let result : ResponseMsg Prob := {}
  let prompt := goal_handle.goal.prompt
  let image_msg := goal_handle.goal.image
  let reset := goal_handle.goal.reset
  let e1 := if reset then eng.reset st.engine else st.engine
  let calls1 : List EngineCall := if reset then [.reset] else []
  let vocab := eng.get_n_vocab e1
  let eos := eng.get_token_eos e1
  let params1 := update_sampling_params goal_handle.goal.sampling_config vocab eos st.params
  let calls2 := calls1 ++ [.update_sampling vocab eos]
  if image_msg.data.length > 0 then
    let buf := imencode_jpg image_msg
    let encoded_image := String.mk (base64_encode buf false)
    let okload := (eng.load_image encoded_image e1).1
    let e2 := (eng.load_image encoded_image e1).2
    let calls3 := calls2 ++ [.load_image encoded_image]
    if okload then
      execute_tail eng ok prompt params1 e2 calls3 st.goal_handle_ result
    else
      match st.goal_handle_ with
      | some h =>
          { engine := e2, params := params1
            goal_handle_ := some { h with status := .aborted }
            calls := calls3, feedbacks := []
            resolution := some (.aborted, result) }
      | none =>
          { engine := e2, params := params1, goal_handle_ := none
            calls := calls3, feedbacks := [], resolution := none }
  else
    execute_tail eng ok prompt params1 (eng.free_image e1)
      (calls2 ++ [.free_image]) st.goal_handle_ result

/-! ## Statement-side abbreviations and spec-side expected values -/

/-- The engine state right after the optional reset step of `execute`. -/
def entry_engine {σ Cfg Par Prob : Type} (eng : Engine σ Prob)
    (goal_handle : GoalHandle Cfg) (st : NodeState σ Cfg Par) : σ :=
  if goal_handle.goal.reset then eng.reset st.engine else st.engine

/-- The base64 string `execute` hands to `load_image` for a non-empty image
payload. -/
def encoded_image_of (imencode_jpg : ImageMsg → List Nat) (image_msg : ImageMsg) :
    String :=
  String.mk (base64_encode (imencode_jpg image_msg) false)

/-- The engine state at entry of the generation step, `none` when the image
step aborts the goal (mirrors the branch structure of `execute`). -/
def gen_entry {σ Cfg Par Prob : Type} (eng : Engine σ Prob)
    (imencode_jpg : ImageMsg → List Nat) (goal_handle : GoalHandle Cfg)
    (st : NodeState σ Cfg Par) : Option σ :=
  let e1 := entry_engine eng goal_handle st
  if goal_handle.goal.image.data.length > 0 then
    if (eng.load_image (encoded_image_of imencode_jpg goal_handle.goal.image) e1).1 then
      some (eng.load_image (encoded_image_of imencode_jpg goal_handle.goal.image) e1).2
    else none
  else some (eng.free_image e1)

/-- Spec-side expected feedback message for one Completion Unit: token id,
detokenized text, chosen-token probability structure and the full alternates
list, each alternate re-detokenized. -/
def feedback_spec {Prob : Type} (detokenize : List Nat → String)
    (completion : CompletionOutput Prob) : FeedbackMsg Prob :=
  { partial_response :=
      { text := detokenize [completion.token]
        token := completion.token
        probs :=
          { chosen_token := completion.token
            data := completion.probs.map fun prob =>
              { token := prob.token
                probability := prob.probability
                token_text := detokenize [prob.token] } } } }

/-- Spec-side expected aggregated result: concatenated detokenized text, the
ordered token ids, and one probability array per unit with re-detokenized
alternates. -/
def response_spec {Prob : Type} (detokenize : List Nat → String)
    (completion_results : List (CompletionOutput Prob)) : ResponseMsg Prob :=
  { text := String.join (completion_results.map fun c => detokenize [c.token])
    tokens := completion_results.map (·.token)
    probs := completion_results.map fun c =>
      { data := c.probs.map fun prob =>
          { token := prob.token
            probability := prob.probability
            token_text := detokenize [prob.token] } } }

/-! ## Goal-lifecycle system for the admission invariant

An abstraction of the goal lifecycle driven by `handle_goal` /
`handle_accepted` / the terminal transitions of `execute`: `goals` records
the status of every goal ever accepted (in admission order) and `slot` is the
index held by `goal_handle_`.  Succeed and cancel clear the slot; abort (the
image-load failure path) resolves the slotted goal but leaves the slot set,
exactly as in the source. -/

structure AdmState where
  goals : List GoalStatus
  slot : Option Nat
deriving DecidableEq, Repr

/-- Initial node state: no goal ever admitted, empty slot. -/
def admInit : AdmState := { goals := [], slot := none }

/-- The `Option (GoalHandle _)` view of the slot that `handle_goal`
dereferences: the slotted goal's handle, with its current status. -/
def slotHandle (s : AdmState) : Option (GoalHandle Unit) :=
  s.slot.bind fun i => (s.goals[i]?).map fun st =>
    { goal := { prompt := "", image := {}, reset := false, sampling_config := () }
      is_canceling := false
      status := st }

/-- Events of the lifecycle: a goal submission, and the three terminal
transitions `execute` can perform on the slotted goal. -/
inductive AdmEvent where
  | submit
  | resolve_succeed
  | resolve_cancel
  | resolve_abort
deriving DecidableEq, Repr

/-- A terminal transition on the slotted goal: only an active (executing)
slotted goal can be resolved; `clear` says whether `goal_handle_` is nulled
afterwards (true for succeed/cancel, false for the abort path). -/
def resolveWith (st : GoalStatus) (clear : Bool) (s : AdmState) : AdmState :=
  match s.slot with
  | some i =>
      if s.goals[i]? = some .executing then
        { goals := s.goals.set i st, slot := if clear then none else s.slot }
      else s
  | none => s

/-- One lifecycle step.  A submission is admitted by `handle_goal` on the
slot's handle; on ACCEPT_AND_EXECUTE the new goal starts executing and
`handle_accepted` points the slot at it. -/
def adm_step (s : AdmState) : AdmEvent → AdmState
  | .submit =>
      match handle_goal (slotHandle s) with
      | .reject => s
      | .accept_and_execute =>
          { goals := s.goals ++ [.executing], slot := some s.goals.length }
  | .resolve_succeed => resolveWith .succeeded true s
  | .resolve_cancel => resolveWith .canceled true s
  | .resolve_abort => resolveWith .aborted false s

/-- The lifecycle state after a sequence of events from the initial state. -/
def adm_run (evs : List AdmEvent) : AdmState := evs.foldl adm_step admInit

/-! ## Concrete fixtures for witnesses and counterexamples -/

/-- A concrete engine over state `Nat` with scripted image-load outcome and
completion list; every operation moves the state by a distinct offset so that
traces are visible in the final state. -/
def testEngine (load_ok : Bool) (cs : List (CompletionOutput Unit)) :
    Engine Nat Unit :=
  { reset := fun s => s + 100
    get_n_vocab := fun s => s + 1
    get_token_eos := fun s => s + 2
    load_image := fun _ s => (load_ok, s + 10)
    free_image := fun s => s + 20
    generate_response := fun _ s => (cs, s + 30)
    detokenize := fun ts => String.join (ts.map (fun t => Nat.repr t))
    cancel := fun s => s + 40 }

/-- A concrete sampling-parameter update: record the freshly queried
vocabulary size and eos token. -/
def testUpd : Unit → Nat → Nat → Nat × Nat → Nat × Nat :=
  fun _ vocab eos _ => (vocab, eos)

/-- A concrete jpeg step: pass the raw payload through unchanged. -/
def testJpeg : ImageMsg → List Nat := fun m => m.data

/-- A concrete goal with the given image payload, reset flag and cancel
flag, in executing state. -/
def testHandle (img : List Nat) (reset canceling : Bool) : GoalHandle Unit :=
  { goal := { prompt := "describe", image := { data := img, encoding := "rgb8" }
              reset := reset, sampling_config := () }
    is_canceling := canceling
    status := .executing }

/-- A concrete node state with the given slot contents. -/
def testState (gh : Option (GoalHandle Unit)) : NodeState Nat Unit (Nat × Nat) :=
  { engine := 0, params := (0, 0), goal_handle_ := gh }

/-- A concrete scripted completion list: two units, the first with one
probability alternate. -/
def testCompletions : List (CompletionOutput Unit) :=
  [{ token := 5, probs := [{ token := 6, probability := () }] },
   { token := 9, probs := [] }]

/-! ## Bitwise arithmetic helpers -/

lemma and_mask_mod_four (n : Nat) : n &&& 3 = n % 4 := by
  have h := Nat.and_pow_two_sub_one_eq_mod n 2; norm_num at h; exact h

lemma and_mask_mod_sixteen (n : Nat) : n &&& 15 = n % 16 := by
  have h := Nat.and_pow_two_sub_one_eq_mod n 4; norm_num at h; exact h

lemma and_mask_mod_sixtyfour (n : Nat) : n &&& 63 = n % 64 := by
  have h := Nat.and_pow_two_sub_one_eq_mod n 6; norm_num at h; exact h

lemma shiftr_two (n : Nat) : n >>> 2 = n / 4 := by
  have h := Nat.shiftRight_eq_div_pow n 2; norm_num at h; exact h

lemma shiftr_four (n : Nat) : n >>> 4 = n / 16 := by
  have h := Nat.shiftRight_eq_div_pow n 4; norm_num at h; exact h

lemma shiftr_six (n : Nat) : n >>> 6 = n / 64 := by
  have h := Nat.shiftRight_eq_div_pow n 6; norm_num at h; exact h

lemma shiftl_two (n : Nat) : n <<< 2 = n * 4 := by
  have h := Nat.shiftLeft_eq n 2; norm_num at h; exact h

lemma shiftl_four (n : Nat) : n <<< 4 = n * 16 := by
  have h := Nat.shiftLeft_eq n 4; norm_num at h; exact h

lemma shiftl_six (n : Nat) : n <<< 6 = n * 64 := by
  have h := Nat.shiftLeft_eq n 6; norm_num at h; exact h

lemma and_fc (b : Nat) (hb : b < 256) : b &&& 0xfc = b / 4 * 4 := by
  revert b; decide

lemma and_f0 (b : Nat) (hb : b < 256) : b &&& 0xf0 = b / 16 * 16 := by
  revert b; decide

lemma and_c0 (b : Nat) (hb : b < 256) : b &&& 0xc0 = b / 64 * 64 := by
  revert b; decide

/-! ## Base64 lemmas -/

lemma b64val_b64sym (v : Nat) (hv : v < 64) : b64val (b64sym false v) = some v := by
  revert v; decide

lemma b64sym_ne_eq (v : Nat) (hv : v < 64) : b64sym false v ≠ '=' := by
  revert v; decide

lemma b64sym_std_ne_eq (v : Nat) : b64sym false v ≠ '=' := by
  by_cases h : v < 64
  · exact b64sym_ne_eq v h
  · unfold b64sym
    rw [List.getD_eq_default]
    · decide
    · have hlen : (base64_chars false).toList.length = 64 := by decide
      omega

lemma sym0_lt (b0 : Nat) (h : b0 < 256) : (b0 &&& 0xfc) >>> 2 < 64 := by
  simp only [and_fc b0 h, shiftr_two]; omega

lemma sym1_lt (b0 b1 : Nat) (h0 : b0 < 256) (h1 : b1 < 256) :
    ((b0 &&& 0x03) <<< 4) + ((b1 &&& 0xf0) >>> 4) < 64 := by
  simp only [and_mask_mod_four, shiftl_four, and_f0 b1 h1, shiftr_four]; omega

lemma sym2_lt (b1 b2 : Nat) (h1 : b1 < 256) (h2 : b2 < 256) :
    ((b1 &&& 0x0f) <<< 2) + ((b2 &&& 0xc0) >>> 6) < 64 := by
  simp only [and_mask_mod_sixteen, shiftl_two, and_c0 b2 h2, shiftr_six]; omega

lemma sym3_lt (b2 : Nat) (h2 : b2 < 256) : b2 &&& 0x3f < 64 := by
  simp only [and_mask_mod_sixtyfour]; omega

/-- Decoding a standard-mode encoding recovers the bytes. -/
theorem base64_roundtrip : ∀ bs : List Nat, (∀ b ∈ bs, b < 256) →
    base64_decode_spec (base64_encode bs false) = some bs
  | [], _ => rfl
  | [b0], h => by
      have hb0 : b0 < 256 := h b0 (by simp)
      have e0 := b64val_b64sym _ (sym0_lt b0 hb0)
      have e1 : b64val (b64sym false ((b0 &&& 0x03) <<< 4)) = some ((b0 &&& 0x03) <<< 4) := by
        apply b64val_b64sym
        simp only [and_mask_mod_four, shiftl_four]; omega
      simp only [base64_encode, base64_decode_spec, if_pos rfl, e0, e1]
      simp only [trailing_char, if_neg (by decide : ¬ (false = true))]
      rw [and_fc b0 hb0, and_mask_mod_four, shiftl_four, shiftl_two, shiftr_four]
      norm_num
      omega
  | [b0, b1], h => by
      have hb0 : b0 < 256 := h b0 (by simp)
      have hb1 : b1 < 256 := h b1 (by simp)
      have e0 := b64val_b64sym _ (sym0_lt b0 hb0)
      have e1 := b64val_b64sym _ (sym1_lt b0 b1 hb0 hb1)
      have e2 : b64val (b64sym false ((b1 &&& 0x0f) <<< 2)) = some ((b1 &&& 0x0f) <<< 2) := by
        apply b64val_b64sym; simp only [and_mask_mod_sixteen, shiftl_two]; omega
      have n2 : b64sym false ((b1 &&& 0x0f) <<< 2) ≠ '=' := by
        apply b64sym_ne_eq; simp only [and_mask_mod_sixteen, shiftl_two]; omega
      simp only [base64_encode, base64_decode_spec, trailing_char,
        if_neg (by decide : ¬ (false = true)), if_neg n2, if_pos rfl, e0, e1, e2]
      simp only [and_fc b0 hb0, and_f0 b1 hb1, and_mask_mod_four, and_mask_mod_sixteen,
        shiftl_two, shiftl_four, shiftr_two, shiftr_four]
      norm_num
      constructor <;> omega
  | b0 :: b1 :: b2 :: rest, h => by
      have hb0 : b0 < 256 := h b0 (by simp)
      have hb1 : b1 < 256 := h b1 (by simp)
      have hb2 : b2 < 256 := h b2 (by simp)
      have ih := base64_roundtrip rest (fun b hb => h b (by simp [hb]))
      have e0 := b64val_b64sym _ (sym0_lt b0 hb0)
      have e1 := b64val_b64sym _ (sym1_lt b0 b1 hb0 hb1)
      have e2 := b64val_b64sym _ (sym2_lt b1 b2 hb1 hb2)
      have e3 := b64val_b64sym _ (sym3_lt b2 hb2)
      have n2 := b64sym_ne_eq _ (sym2_lt b1 b2 hb1 hb2)
      have n3 := b64sym_ne_eq _ (sym3_lt b2 hb2)
      simp only [base64_encode, base64_decode_spec, if_neg n2, if_neg n3, e0, e1, e2, e3, ih]
      simp only [and_fc b0 hb0, and_f0 b1 hb1, and_c0 b2 hb2, and_mask_mod_four,
        and_mask_mod_sixteen, and_mask_mod_sixtyfour,
        shiftl_two, shiftl_four, shiftl_six, shiftr_two, shiftr_four, shiftr_six]
      norm_num
      refine ⟨by omega, by omega, by omega⟩

/-- Standard mode emits exactly `(3 - len % 3) % 3` padding characters. -/
theorem base64_pad_count : ∀ bs : List Nat,
    (base64_encode bs false).count '=' = (3 - bs.length % 3) % 3
  | [] => rfl
  | [b0] => by
      simp [base64_encode, List.count_cons, b64sym_std_ne_eq, trailing_char]
  | [b0, b1] => by
      simp [base64_encode, List.count_cons, b64sym_std_ne_eq, trailing_char]
  | b0 :: b1 :: b2 :: rest => by
      have ih := base64_pad_count rest
      simp [base64_encode, List.count_cons, b64sym_std_ne_eq, ih]
      omega

/-- C3.  For every byte buffer, `base64_encode` in standard mode (`url =
false`) is exact standard base64: decoding its output with the standard
alphabet and `=` padding reconstructs the original bytes, and the number of
padding characters is `(3 - len % 3) % 3` — in particular this covers
lengths 0, 1, 2, 3 and all non-multiples of 3, with the trailing one- and
two-byte groups emitting two and one `=` respectively. -/
theorem base64_standard_roundtrip_and_padding (bs : List Nat)
    (h : ∀ b ∈ bs, b < 256) :
    base64_decode_spec (base64_encode bs false) = some bs ∧
    (base64_encode bs false).count '=' = (3 - bs.length % 3) % 3 :=
  ⟨base64_roundtrip bs h, base64_pad_count bs⟩

/-- C3 witness: a concrete two-byte buffer. -/
theorem base64_standard_roundtrip_and_padding_witness :
    base64_decode_spec (base64_encode [77, 97] false) = some [77, 97] ∧
    (base64_encode [77, 97] false).count '=' = (3 - [77, 97].length % 3) % 3 :=
  base64_standard_roundtrip_and_padding [77, 97] (by decide)

/-! ## Admission control and the single-running-goal invariant -/

/-- `handle_goal` on the slot view answers REJECT exactly when the slot holds
a goal that is still executing. -/
lemma handle_goal_slot_reject_iff (s : AdmState) :
    handle_goal (slotHandle s) = .reject ↔
      ∃ i, s.slot = some i ∧ s.goals[i]? = some .executing := by
  unfold handle_goal slotHandle
  cases hs : s.slot with
  | none => simp
  | some i =>
      cases hg : s.goals[i]? with
      | none => simp [Option.bind, hg]
      | some st =>
          simp only [Option.bind, hg, Option.map_some]
          by_cases hst : st = .executing
          · subst hst; simp [hg]
          · simp [hst]
            intro h
            cases st <;> simp_all

/-- The admission invariant: every executing goal is the slotted one. -/
def AdmInv (s : AdmState) : Prop :=
  ∀ j, s.goals[j]? = some .executing → s.slot = some j

lemma admInv_init : AdmInv admInit := by
  intro j h
  simp [admInit] at h

lemma admInv_resolveWith (st : GoalStatus) (hst : st ≠ .executing) (clear : Bool)
    (s : AdmState) (hinv : AdmInv s) : AdmInv (resolveWith st clear s) := by
  unfold resolveWith
  cases hs : s.slot with
  | none => simpa [hs] using hinv
  | some i =>
      by_cases hg : s.goals[i]? = some .executing
      · simp only [hs, hg, if_pos]
        intro j hj
        by_cases hij : i = j
        · subst hij
          rcases List.getElem?_eq_some.mp hg with ⟨hlen, _⟩
          rw [List.getElem?_set_self hlen] at hj
          exact absurd (Option.some.inj hj) hst
        · rw [List.getElem?_set_ne hij] at hj
          have := hinv j hj
          rw [hs] at this
          cases this
          exact absurd rfl hij
      · simp only [hs, hg, if_neg]
        simpa using hinv

lemma admInv_step (s : AdmState) (hinv : AdmInv s) (e : AdmEvent) :
    AdmInv (adm_step s e) := by
  cases e with
  | submit =>
      unfold adm_step
      cases hd : handle_goal (slotHandle s) with
      | reject => simpa using hinv
      | accept_and_execute =>
          intro j hj
          simp only at hj
          rw [List.getElem?_append] at hj
          split at hj
          · have hslot := hinv j hj
            have : handle_goal (slotHandle s) = .reject :=
              (handle_goal_slot_reject_iff s).mpr ⟨j, hslot, hj⟩
            rw [hd] at this
            cases this
          · rename_i hge
            push_neg at hge
            rcases List.getElem?_eq_some.mp hj with ⟨hlen, _⟩
            simp only [List.length_cons, List.length_nil] at hlen
            have hj_eq : j = s.goals.length := by omega
            simp [hj_eq]
  | resolve_succeed => exact admInv_resolveWith .succeeded (by decide) true s hinv
  | resolve_cancel => exact admInv_resolveWith .canceled (by decide) true s hinv
  | resolve_abort => exact admInv_resolveWith .aborted (by decide) false s hinv

lemma admInv_run (evs : List AdmEvent) : AdmInv (adm_run evs) := by
  have h : ∀ s, AdmInv s → AdmInv (evs.foldl adm_step s) := by
    induction evs with
    | nil => intro s hs; exact hs
    | cons e tl ih =>
        intro s hs
        exact ih _ (admInv_step s hs e)
  exact h admInit admInv_init

/-- C1.  Along every sequence of goal submissions and resolutions:
`handle_goal` answers REJECT exactly when the stored handle exists and is
still active; a rejected submission mutates no state (the decision is pure
and the step is the identity); and at most one goal is ever in RUNNING
(executing) state — any two executing positions coincide. -/
theorem admission_reject_iff_active_and_unique_running (evs : List AdmEvent) :
    (handle_goal (slotHandle (adm_run evs)) = .reject ↔
      ∃ i, (adm_run evs).slot = some i ∧
        (adm_run evs).goals[i]? = some .executing) ∧
    (handle_goal (slotHandle (adm_run evs)) = .reject →
      adm_step (adm_run evs) .submit = adm_run evs) ∧
    (∀ j k : Nat, (adm_run evs).goals[j]? = some GoalStatus.executing →
      (adm_run evs).goals[k]? = some GoalStatus.executing → j = k) := by
  refine ⟨handle_goal_slot_reject_iff _, ?_, ?_⟩
  · intro hd
    simp [adm_step, hd]
  · intro j k hj hk
    have h1 := admInv_run evs j hj
    have h2 := admInv_run evs k hk
    rw [h1] at h2
    exact Option.some.inj h2

/-- C1 witness: after one accepted submission, a second submission is
rejected and leaves the state untouched. -/
theorem admission_reject_iff_active_and_unique_running_witness :
    adm_step (adm_run [.submit]) .submit = adm_run [.submit] :=
  (admission_reject_iff_active_and_unique_running [.submit]).2.1 (by decide)


/-! ## Execution coordinator theorems -/

variable {σ Cfg Par Prob : Type}

lemma str_foldl_append (s : String) (l : List String) :
    l.foldl (fun r t => r ++ t) s = s ++ l.foldl (fun r t => r ++ t) "" := by
  induction l generalizing s with
  | nil => simp
  | cons a tl ih =>
      simp only [List.foldl_cons]
      rw [ih (s ++ a), ih ("" ++ a), String.empty_append, String.append_assoc]

lemma aggregate_eq (detok : List Nat → String) (init : ResponseMsg Prob)
    (cs : List (CompletionOutput Prob)) :
    aggregate detok init cs =
      { text := init.text ++ String.join (cs.map fun c => detok [c.token])
        tokens := init.tokens ++ cs.map (·.token)
        probs := init.probs ++ cs.map fun c =>
          { data := c.probs.map fun prob =>
              { token := prob.token
                probability := prob.probability
                token_text := detok [prob.token] } } } := by
  induction cs generalizing init with
  | nil => simp [aggregate, String.join]
  | cons c tl ih =>
      simp only [aggregate, List.foldl_cons] at ih ⊢
      rw [ih]
      simp only [String.join, List.map_cons, List.foldl_cons, String.empty_append]
      rw [str_foldl_append (detok [c.token])]
      simp [String.append_assoc]

lemma aggregate_default (detok : List Nat → String)
    (cs : List (CompletionOutput Prob)) :
    aggregate detok ({} : ResponseMsg Prob) cs = response_spec detok cs := by
  rw [aggregate_eq]
  simp [response_spec]

lemma send_text_some (detok : List Nat → String) (h : GoalHandle Cfg)
    (c : CompletionOutput Prob) :
    send_text detok (some h) c = [feedback_spec detok c] := rfl

lemma send_text_flatten (detok : List Nat → String) (h : GoalHandle Cfg)
    (cs : List (CompletionOutput Prob)) :
    ((cs.map (send_text detok (some h))).flatten : List (FeedbackMsg Prob))
      = cs.map (feedback_spec detok) := by
  induction cs with
  | nil => rfl
  | cons c tl ih => simp [send_text_some, ih]

lemma execute_tail_out (eng : Engine σ Prob) (prompt : String) (p1 : Par)
    (e2 : σ) (calls : List EngineCall) (h : GoalHandle Cfg)
    (r0 : ResponseMsg Prob) :
    execute_tail eng true prompt p1 e2 calls (some h) r0 =
      { engine := (eng.generate_response prompt e2).2
        params := p1
        goal_handle_ := none
        calls := calls ++ [.generate prompt]
        feedbacks := ((eng.generate_response prompt e2).1).map
          (feedback_spec eng.detokenize)
        resolution := some ((if h.is_canceling then .canceled else .succeeded),
          aggregate eng.detokenize r0 ((eng.generate_response prompt e2).1)) } := by
  unfold execute_tail
  cases hc : h.is_canceling <;> simp [send_text_flatten, hc]

lemma execute_tail_calls (eng : Engine σ Prob) (ok : Bool) (prompt : String)
    (p1 : Par) (e2 : σ) (calls : List EngineCall)
    (mem : Option (GoalHandle Cfg)) (r0 : ResponseMsg Prob) :
    (execute_tail eng ok prompt p1 e2 calls mem r0).calls
      = calls ++ [.generate prompt] := by
  unfold execute_tail
  cases ok <;> cases mem <;> simp <;> split <;> rfl

lemma execute_tail_not_ok (eng : Engine σ Prob) (prompt : String)
    (p1 : Par) (e2 : σ) (calls : List EngineCall)
    (mem : Option (GoalHandle Cfg)) (r0 : ResponseMsg Prob) :
    (execute_tail eng false prompt p1 e2 calls mem r0).goal_handle_ = mem ∧
    (execute_tail eng false prompt p1 e2 calls mem r0).resolution = none := by
  unfold execute_tail
  exact ⟨rfl, rfl⟩

lemma execute_reaches_tail (eng : Engine σ Prob)
    (upd : Cfg → Nat → Nat → Par → Par) (imenc : ImageMsg → List Nat)
    (ok : Bool) (gh : GoalHandle Cfg) (st : NodeState σ Cfg Par) (e2 : σ)
    (hgen : gen_entry eng imenc gh st = some e2) :
    ∃ calls : List EngineCall,
      execute eng upd imenc ok gh st =
        execute_tail eng ok gh.goal.prompt
          (upd gh.goal.sampling_config
            (eng.get_n_vocab (entry_engine eng gh st))
            (eng.get_token_eos (entry_engine eng gh st)) st.params)
          e2 calls st.goal_handle_ ({} : ResponseMsg Prob) := by
  unfold gen_entry at hgen
  unfold execute
  simp only [entry_engine] at hgen ⊢
  by_cases himg : gh.goal.image.data.length > 0
  · rw [if_pos himg] at hgen ⊢
    by_cases hload :
        (eng.load_image (encoded_image_of imenc gh.goal.image)
          (if gh.goal.reset then eng.reset st.engine else st.engine)).1 = true
    · rw [if_pos hload] at hgen
      rw [Option.some.injEq] at hgen
      subst hgen
      simp only [encoded_image_of] at hload ⊢
      rw [if_pos hload]
      exact ⟨_, rfl⟩
    · rw [if_neg hload] at hgen
      cases hgen
  · rw [if_neg himg] at hgen ⊢
    rw [Option.some.injEq] at hgen
    subst hgen
    exact ⟨_, rfl⟩

lemma execute_abort_out (eng : Engine σ Prob)
    (upd : Cfg → Nat → Nat → Par → Par) (imenc : ImageMsg → List Nat)
    (ok : Bool) (gh : GoalHandle Cfg) (st : NodeState σ Cfg Par)
    (h : GoalHandle Cfg)
    (hmem : st.goal_handle_ = some h)
    (himg : gh.goal.image.data.length > 0)
    (hload : (eng.load_image (encoded_image_of imenc gh.goal.image)
        (entry_engine eng gh st)).1 = false) :
    execute eng upd imenc ok gh st =
      { engine := (eng.load_image (encoded_image_of imenc gh.goal.image)
            (entry_engine eng gh st)).2
        params := upd gh.goal.sampling_config
            (eng.get_n_vocab (entry_engine eng gh st))
            (eng.get_token_eos (entry_engine eng gh st)) st.params
        goal_handle_ := some { h with status := .aborted }
        calls := (if gh.goal.reset then [.reset] else [])
          ++ [.update_sampling (eng.get_n_vocab (entry_engine eng gh st))
                (eng.get_token_eos (entry_engine eng gh st)),
              .load_image (encoded_image_of imenc gh.goal.image)]
        feedbacks := []
        resolution := some (.aborted, ({} : ResponseMsg Prob)) } := by
  unfold execute
  simp only [encoded_image_of, entry_engine] at hload ⊢
  rw [if_pos himg, if_neg (by rw [hload]; exact Bool.false_ne_true), hmem]
  simp

/-- C4.  For every goal with a non-empty image payload whose `load_image`
call fails, the goal is aborted with an empty result (no text, no tokens, no
probabilities), no feedback is published, and the coordinator terminates
without ever invoking `generate_response`. -/
theorem load_image_failure_aborts_without_generation (eng : Engine σ Prob)
    (upd : Cfg → Nat → Nat → Par → Par) (imenc : ImageMsg → List Nat)
    (ok : Bool) (gh : GoalHandle Cfg) (st : NodeState σ Cfg Par)
    (h : GoalHandle Cfg)
    (hmem : st.goal_handle_ = some h)
    (himg : gh.goal.image.data.length > 0)
    (hload : (eng.load_image (encoded_image_of imenc gh.goal.image)
        (entry_engine eng gh st)).1 = false) :
    (execute eng upd imenc ok gh st).resolution
        = some (.aborted, ({} : ResponseMsg Prob)) ∧
    (execute eng upd imenc ok gh st).feedbacks = [] ∧
    (∀ p, EngineCall.generate p ∉ (execute eng upd imenc ok gh st).calls) := by
  rw [execute_abort_out eng upd imenc ok gh st h hmem himg hload]
  refine ⟨rfl, rfl, ?_⟩
  intro p hp
  simp only at hp
  rcases List.mem_append.mp hp with h1 | h2
  · split at h1 <;> simp_all
  · simp_all

/-- The call trace of an empty-image run. -/
lemma execute_empty_image_calls (eng : Engine σ Prob)
    (upd : Cfg → Nat → Nat → Par → Par) (imenc : ImageMsg → List Nat)
    (ok : Bool) (gh : GoalHandle Cfg) (st : NodeState σ Cfg Par)
    (himg : gh.goal.image.data.length = 0) :
    (execute eng upd imenc ok gh st).calls
      = (if gh.goal.reset then [.reset] else [])
        ++ [.update_sampling (eng.get_n_vocab (entry_engine eng gh st))
              (eng.get_token_eos (entry_engine eng gh st)),
            .free_image, .generate gh.goal.prompt] := by
  have hnot : ¬ gh.goal.image.data.length > 0 := by omega
  unfold execute
  rw [if_neg hnot, execute_tail_calls]
  simp [entry_engine]

/-- An empty-image run never calls `load_image`. -/
lemma execute_empty_image_no_load (eng : Engine σ Prob)
    (upd : Cfg → Nat → Nat → Par → Par) (imenc : ImageMsg → List Nat)
    (ok : Bool) (gh : GoalHandle Cfg) (st : NodeState σ Cfg Par)
    (himg : gh.goal.image.data.length = 0) :
    ∀ s', EngineCall.load_image s' ∉ (execute eng upd imenc ok gh st).calls := by
  intro s' hs'
  rw [execute_empty_image_calls eng upd imenc ok gh st himg] at hs'
  rcases List.mem_append.mp hs' with h1 | h2
  · split at h1 <;> simp_all
  · simp_all

/-- C5.  For every goal whose image payload has length 0, the image codec is
never invoked (no `load_image` call, hence no base64 encoding reaches the
engine) and the coordinator instead calls `free_image` and then proceeds to
generation, in that order. -/
theorem empty_image_frees_then_generates (eng : Engine σ Prob)
    (upd : Cfg → Nat → Nat → Par → Par) (imenc : ImageMsg → List Nat)
    (ok : Bool) (gh : GoalHandle Cfg) (st : NodeState σ Cfg Par)
    (himg : gh.goal.image.data.length = 0) :
    (execute eng upd imenc ok gh st).calls
      = (if gh.goal.reset then [.reset] else [])
        ++ [.update_sampling (eng.get_n_vocab (entry_engine eng gh st))
              (eng.get_token_eos (entry_engine eng gh st)),
            .free_image, .generate gh.goal.prompt] ∧
    (∀ s', EngineCall.load_image s' ∉ (execute eng upd imenc ok gh st).calls) :=
  ⟨execute_empty_image_calls eng upd imenc ok gh st himg,
   execute_empty_image_no_load eng upd imenc ok gh st himg⟩

/-- C6.  For every run that reaches the generation step (entry state `e2`),
the final result is built from the Completion Units returned by
`generate_response` in order — concatenated detokenized text, the ordered
token ids, and per-unit re-detokenized alternates (`response_spec`) — the
goal resolves CANCELED when the active handle observes a pending
cancellation and SUCCEEDED otherwise, and the published feedback sequence is
exactly one message per unit in generation order, so the aggregated tokens
are exactly the emitted ones, with no gaps or duplicates. -/
theorem generation_aggregation_and_resolution (eng : Engine σ Prob)
    (upd : Cfg → Nat → Nat → Par → Par) (imenc : ImageMsg → List Nat)
    (gh : GoalHandle Cfg) (st : NodeState σ Cfg Par)
    (h : GoalHandle Cfg) (e2 : σ)
    (hmem : st.goal_handle_ = some h)
    (hgen : gen_entry eng imenc gh st = some e2) :
    (execute eng upd imenc true gh st).resolution =
      some ((if h.is_canceling then GoalStatus.canceled else GoalStatus.succeeded),
        response_spec eng.detokenize ((eng.generate_response gh.goal.prompt e2).1)) ∧
    (execute eng upd imenc true gh st).feedbacks =
      ((eng.generate_response gh.goal.prompt e2).1).map (feedback_spec eng.detokenize) ∧
    ((execute eng upd imenc true gh st).feedbacks).map
        (fun f => f.partial_response.token) =
      ((eng.generate_response gh.goal.prompt e2).1).map (·.token) := by
  obtain ⟨calls, hc⟩ := execute_reaches_tail eng upd imenc true gh st e2 hgen
  rw [hc, hmem, execute_tail_out, aggregate_default]
  refine ⟨rfl, rfl, ?_⟩
  simp [feedback_spec]


/-- C2 (amended).  The Active Goal Handle is cleared exactly on the
succeeded/canceled resolutions performed while the process is not shutting
down: when the run reaches generation and `rclcpp::ok()` holds the member is
nulled; on the image-load-failure abort the member is retained (only its
status becomes aborted, hence inactive); when shutdown skips resolution the
member is retained unchanged. -/
theorem goal_handle_clear_exactly_on_ok_resolution (eng : Engine σ Prob)
    (upd : Cfg → Nat → Nat → Par → Par) (imenc : ImageMsg → List Nat)
    (gh : GoalHandle Cfg) (st : NodeState σ Cfg Par) (h : GoalHandle Cfg)
    (hmem : st.goal_handle_ = some h) :
    (∀ e2, gen_entry eng imenc gh st = some e2 →
      (execute eng upd imenc true gh st).goal_handle_ = none) ∧
    (∀ ok : Bool, gh.goal.image.data.length > 0 →
      (eng.load_image (encoded_image_of imenc gh.goal.image)
          (entry_engine eng gh st)).1 = false →
      (execute eng upd imenc ok gh st).goal_handle_
        = some { h with status := GoalStatus.aborted }) ∧
    (∀ e2, gen_entry eng imenc gh st = some e2 →
      (execute eng upd imenc false gh st).goal_handle_ = some h) := by
  refine ⟨?_, ?_, ?_⟩
  · intro e2 hgen
    obtain ⟨calls, hc⟩ := execute_reaches_tail eng upd imenc true gh st e2 hgen
    rw [hc, hmem, execute_tail_out]
  · intro ok himg hload
    rw [execute_abort_out eng upd imenc ok gh st h hmem himg hload]
  · intro e2 hgen
    obtain ⟨calls, hc⟩ := execute_reaches_tail eng upd imenc false gh st e2 hgen
    rw [hc, hmem]
    exact (execute_tail_not_ok eng gh.goal.prompt _ e2 calls (some h) {}).1

/-- C7.  For every cancel request — including one arriving when no goal is
active or the goal has already resolved, since the node state is universally
quantified — `handle_cancel` forwards `cancel()` to the engine, returns
ACCEPT, and mutates no goal state itself (slot and sampling parameters are
untouched). -/
theorem handle_cancel_accepts_and_mutates_no_goal_state (eng : Engine σ Prob)
    (st : NodeState σ Cfg Par) :
    (handle_cancel eng st).2 = CancelResponse.accept ∧
    (handle_cancel eng st).1.goal_handle_ = st.goal_handle_ ∧
    (handle_cancel eng st).1.params = st.params ∧
    (handle_cancel eng st).1.engine = eng.cancel st.engine :=
  ⟨rfl, rfl, rfl, rfl⟩

/-- C8.  For every Completion Unit passed to `send_text`: with no Active
Goal Handle the call publishes nothing and raises no error; with a handle it
publishes exactly one feedback message carrying the unit's token id,
detokenized text, chosen-token probability structure and the fully
re-detokenized alternates list; and over a completion list the emissions are
one per unit in generation order. -/
theorem send_text_silent_noop_or_single_feedback (detok : List Nat → String)
    (c : CompletionOutput Prob) (h : GoalHandle Cfg)
    (cs : List (CompletionOutput Prob)) :
    send_text detok (none : Option (GoalHandle Cfg)) c = [] ∧
    send_text detok (some h) c = [feedback_spec detok c] ∧
    ((cs.map (send_text detok (some h))).flatten : List (FeedbackMsg Prob))
      = cs.map (feedback_spec detok) :=
  ⟨rfl, rfl, send_text_flatten detok h cs⟩

/-- C9.  The abort on image-load failure is not atomic with respect to
prior state: when the goal's reset flag is set and `load_image` fails, the
engine reset and the sampling-parameter mutation (with freshly queried
vocabulary size and eos token, taken from the post-reset engine) have
already happened before the abort, are not rolled back, and persist in the
node state that the next request starts from. -/
theorem abort_not_atomic_prior_mutations_persist (eng : Engine σ Prob)
    (upd : Cfg → Nat → Nat → Par → Par) (imenc : ImageMsg → List Nat)
    (ok : Bool) (gh : GoalHandle Cfg) (st : NodeState σ Cfg Par)
    (h : GoalHandle Cfg)
    (hmem : st.goal_handle_ = some h)
    (himg : gh.goal.image.data.length > 0)
    (hreset : gh.goal.reset = true)
    (hload : (eng.load_image (encoded_image_of imenc gh.goal.image)
        (eng.reset st.engine)).1 = false) :
    (execute eng upd imenc ok gh st).engine
      = (eng.load_image (encoded_image_of imenc gh.goal.image)
          (eng.reset st.engine)).2 ∧
    (execute eng upd imenc ok gh st).params
      = upd gh.goal.sampling_config (eng.get_n_vocab (eng.reset st.engine))
          (eng.get_token_eos (eng.reset st.engine)) st.params ∧
    (execute eng upd imenc ok gh st).resolution
      = some (.aborted, ({} : ResponseMsg Prob)) ∧
    (execute eng upd imenc ok gh st).calls
      = [.reset,
         .update_sampling (eng.get_n_vocab (eng.reset st.engine))
           (eng.get_token_eos (eng.reset st.engine)),
         .load_image (encoded_image_of imenc gh.goal.image)] := by
  have he : entry_engine eng gh st = eng.reset st.engine := by
    unfold entry_engine
    rw [hreset]
    simp
  have hload2 : (eng.load_image (encoded_image_of imenc gh.goal.image)
      (entry_engine eng gh st)).1 = false := by rw [he]; exact hload
  rw [execute_abort_out eng upd imenc ok gh st h hmem himg hload2, he]
  refine ⟨rfl, rfl, rfl, ?_⟩
  rw [hreset]
  simp

/-- C10.  `base64_encode` takes a third `url` flag: when true, symbols 62
and 63 are `-` and `_` and the trailing/padding character is `.` rather than
`=`; and `execute` only ever passes `url = false` on the image path — every
`load_image` call carries the standard-alphabet, `=`-padded encoding. -/
theorem url_mode_alphabet_and_standard_only_on_image_path :
    (b64sym true 62 = '-' ∧ b64sym true 63 = '_' ∧ trailing_char true = '.') ∧
    (∀ b0 : Nat, (base64_encode [b0] true).drop 2 = ['.', '.']) ∧
    (∀ b0 b1 : Nat, (base64_encode [b0, b1] true).drop 3 = ['.']) ∧
    (∀ (σ Cfg Par Prob : Type) (eng : Engine σ Prob)
        (upd : Cfg → Nat → Nat → Par → Par) (imenc : ImageMsg → List Nat)
        (ok : Bool) (gh : GoalHandle Cfg) (st : NodeState σ Cfg Par)
        (s' : String),
        EngineCall.load_image s' ∈ (execute eng upd imenc ok gh st).calls →
        s' = encoded_image_of imenc gh.goal.image) := by
  refine ⟨by decide, ?_, ?_, ?_⟩
  · intro b0
    simp [base64_encode, trailing_char]
  · intro b0 b1
    simp [base64_encode, trailing_char]
  · intro σ Cfg Par Prob eng upd imenc ok gh st s' hs'
    by_cases himg : gh.goal.image.data.length > 0
    · unfold execute at hs'
      rw [if_pos himg] at hs'
      by_cases hload :
          (eng.load_image (String.mk (base64_encode (imenc gh.goal.image) false))
            (if gh.goal.reset then eng.reset st.engine else st.engine)).1 = true
      · rw [if_pos hload, execute_tail_calls] at hs'
        rcases List.mem_append.mp hs' with h1 | h2
        · rcases List.mem_append.mp h1 with h3 | h4
          · split at h3 <;> simp_all
          · simp_all [encoded_image_of]
        · simp_all
      · rw [if_neg hload] at hs'
        cases hm : st.goal_handle_ with
        | some hh =>
            rw [hm] at hs'
            simp only at hs'
            rcases List.mem_append.mp hs' with h1 | h2
            · split at h1 <;> simp_all
            · simp_all [encoded_image_of]
        | none =>
            rw [hm] at hs'
            simp only at hs'
            rcases List.mem_append.mp hs' with h1 | h2
            · split at h1 <;> simp_all
            · simp_all [encoded_image_of]
    · exact absurd hs'
        (execute_empty_image_no_load eng upd imenc ok gh st (by omega) s')


/-- C2 counterexample: a concrete failing `load_image` run resolves the
goal ABORTED yet leaves `goal_handle_` set, refuting the claim that the
handle is cleared on every terminal transition. -/
theorem abort_leaves_active_goal_handle_set_cex :
    (execute (testEngine false []) testUpd testJpeg true (testHandle [1] false false)
        (testState (some (testHandle [1] false false)))).resolution
      = some (.aborted, ({} : ResponseMsg Unit)) ∧
    (execute (testEngine false []) testUpd testJpeg true (testHandle [1] false false)
        (testState (some (testHandle [1] false false)))).goal_handle_ ≠ none := by
  decide

/-- C2 witness: on a concrete successful run with `rclcpp::ok()`, the
handle is cleared. -/
theorem goal_handle_clear_exactly_on_ok_resolution_witness :
    (testState (some (testHandle [] false false))).goal_handle_
      = some (testHandle [] false false) ∧
    gen_entry (testEngine true []) testJpeg (testHandle [] false false)
      (testState (some (testHandle [] false false))) = some 20 ∧
    (execute (testEngine true []) testUpd testJpeg true (testHandle [] false false)
        (testState (some (testHandle [] false false)))).goal_handle_ = none :=
  ⟨rfl, rfl,
    (goal_handle_clear_exactly_on_ok_resolution (testEngine true []) testUpd testJpeg
      (testHandle [] false false) (testState (some (testHandle [] false false)))
      (testHandle [] false false) rfl).1 20 rfl⟩

/-- C4 witness: concrete failing image load. -/
theorem load_image_failure_aborts_without_generation_witness :
    (testHandle [1] true false).goal.image.data.length > 0 ∧
    (execute (testEngine false []) testUpd testJpeg true (testHandle [1] true false)
        (testState (some (testHandle [1] true false)))).resolution
      = some (.aborted, ({} : ResponseMsg Unit)) :=
  ⟨by decide,
    (load_image_failure_aborts_without_generation (testEngine false []) testUpd testJpeg
      true (testHandle [1] true false) (testState (some (testHandle [1] true false)))
      (testHandle [1] true false) rfl (by decide) rfl).1⟩

/-- C5 witness: concrete empty-image run. -/
theorem empty_image_frees_then_generates_witness :
    (testHandle [] false false).goal.image.data.length = 0 ∧
    (execute (testEngine true []) testUpd testJpeg true (testHandle [] false false)
        (testState (some (testHandle [] false false)))).calls
      = [EngineCall.update_sampling 1 2, .free_image, .generate "describe"] :=
  ⟨rfl,
    (empty_image_frees_then_generates (testEngine true []) testUpd testJpeg true
      (testHandle [] false false) (testState (some (testHandle [] false false))) rfl).1⟩

/-- C6 witness: concrete canceled run over two scripted completions. -/
theorem generation_aggregation_and_resolution_witness :
    gen_entry (testEngine true testCompletions) testJpeg (testHandle [] false true)
      (testState (some (testHandle [] false true))) = some 20 ∧
    (execute (testEngine true testCompletions) testUpd testJpeg true
        (testHandle [] false true)
        (testState (some (testHandle [] false true)))).resolution
      = some (GoalStatus.canceled,
          response_spec (testEngine true testCompletions).detokenize testCompletions) :=
  ⟨rfl,
    (generation_aggregation_and_resolution (testEngine true testCompletions) testUpd
      testJpeg (testHandle [] false true) (testState (some (testHandle [] false true)))
      (testHandle [] false true) 20 rfl rfl).1⟩

/-- C9 witness: concrete aborted run with the reset flag set. -/
theorem abort_not_atomic_prior_mutations_persist_witness :
    (execute (testEngine false []) testUpd testJpeg true (testHandle [3] true false)
        (testState (some (testHandle [3] true false)))).params = (101, 102) ∧
    (execute (testEngine false []) testUpd testJpeg true (testHandle [3] true false)
        (testState (some (testHandle [3] true false)))).calls
      = [EngineCall.reset, .update_sampling 101 102,
         .load_image (String.mk (base64_encode [3] false))] := by
  have A := abort_not_atomic_prior_mutations_persist (testEngine false []) testUpd
    testJpeg true (testHandle [3] true false) (testState (some (testHandle [3] true false)))
    (testHandle [3] true false) rfl (by decide) rfl rfl
  exact ⟨A.2.1, A.2.2.2⟩

/-- C10 witness: the concrete image path carries the standard encoding. -/
theorem url_mode_alphabet_and_standard_only_on_image_path_witness :
    EngineCall.load_image (String.mk (base64_encode [9] false))
      ∈ (execute (testEngine true []) testUpd testJpeg true (testHandle [9] false false)
          (testState (some (testHandle [9] false false)))).calls ∧
    String.mk (base64_encode [9] false)
      = encoded_image_of testJpeg (testHandle [9] false false).goal.image :=
  ⟨by decide,
    url_mode_alphabet_and_standard_only_on_image_path.2.2.2 Nat Unit (Nat × Nat) Unit
      (testEngine true []) testUpd testJpeg true (testHandle [9] false false)
      (testState (some (testHandle [9] false false)))
      (String.mk (base64_encode [9] false)) (by decide)⟩

end LlavaNode

